import Mathlib

/-!
# Admittance controller

A shallow embedding of `src/admittance_controller/admittance_controller.cpp`.

* `double` is read as an exact rational (`ℚ`); rounding, infinities and NaN are outside the model.
* `Vector6d`, `Array6d` are functions `Fin 6 → ℚ`, `Matrix6d` is a 6×6 matrix over `ℚ`.
* The members of the class that the control pipeline reads or writes form the record `State`;
  every member function becomes a function on `State`.
* The MoveIt robot model is an external library: the Jacobian returned by
  `compute_arm_jacobian` and the block rotation returned by `get_ee_rotation_matrix` are taken
  as arguments of `compute_admittance`.
* The callbacks that `ros::spinOnce` dispatches are separate transitions
  (`force_sensor_Callback`, `joint_states_Callback`) taken before the cycle reads the members.
-/

namespace admittance_controller

/-- Eigen `Vector6d` (also used for `Array6d`): six scalars. -/
abbrev Vector6d := Fin 6 → ℚ

/-- Eigen `Matrix6d`. -/
abbrev Matrix6d := Matrix (Fin 6) (Fin 6) ℚ

/-- The C library `fabs`. -/
def fabs (x : ℚ) : ℚ := |x|

/-- Eigen `inverse()`: the determinant-and-adjugate formula. On an invertible matrix this is
the two-sided inverse (see `inverse_mul_cancel`, `inverse_eq_of_mul_eq_one`); on a singular
matrix the C++ result is undefined, and the value of the formula there (the zero matrix) stands
for nothing in the program: `checked_inverse` carries the precondition. -/
def inverse (A : Matrix6d) : Matrix6d := (A.det)⁻¹ • A.adjugate

/-- Source lines 363-368, `admittance_controller::sign`. -/
def sign (num : ℚ) : ℤ :=
  if num ≥ 0 then 1 else -1

/-! ## Messages -/

/-- The message `geometry_msgs::Vector3`. -/
structure Vector3 where
  x : ℚ
  y : ℚ
  z : ℚ

/-- The message `geometry_msgs::Wrench`. -/
structure Wrench where
  force : Vector3
  torque : Vector3

/-- The message `geometry_msgs::WrenchStamped` (header left out). -/
structure WrenchStamped where
  wrench : Wrench

/-- The message `sensor_msgs::JointState` (header left out): four `std::vector`s. -/
structure JointState where
  name : List String
  position : List ℚ
  velocity : List ℚ
  effort : List ℚ

/-- The `ros::Rate` member, reduced to `expectedCycleTime().toSec()`. -/
structure Rate where
  expectedCycleTime : ℚ

/-! ## Controller state -/

/-- The members of `admittance_controller` used by the control pipeline. `joint_position` and
`joint_velocity` are `std::vector<double>` resized to 6 by the constructor and never resized
again, so they are kept as six scalars. -/
structure State where
  loop_rate : Rate
  mass_matrix : Matrix6d
  damping_matrix : Matrix6d
  force_dead_zone : ℚ
  torque_dead_zone : ℚ
  admittance_weight : ℚ
  max_vel : Vector6d
  max_acc : Vector6d
  use_feedback_velocity : Bool
  inertia_reduction : Bool
  use_ur_real_robot : Bool
  joint_state : JointState
  joint_position : Vector6d
  joint_velocity : Vector6d
  external_wrench : Vector6d
  x_dot : Vector6d
  q_dot : Vector6d
  x_dot_last_cycle : Vector6d
  q_dot_last_cycle : Vector6d
  J : Matrix6d
  force_callback : Bool
  joint_state_callback : Bool

/-- Source lines 6-44, the constructor: configuration from the arguments and the three
`nh.param` flags, working vectors set to zero, callback flags cleared. -/
def admittance_controller (ros_rate : Rate) (mass_model_matrix damping_model_matrix : Matrix6d)
    (force_dead_zone torque_dead_zone admittance_weight : ℚ)
    (maximum_velocity maximum_acceleration : Vector6d)
    (use_feedback_velocity inertia_reduction use_ur_real_robot : Bool) : State :=
  { loop_rate := ros_rate
    mass_matrix := mass_model_matrix
    damping_matrix := damping_model_matrix
    force_dead_zone := force_dead_zone
    torque_dead_zone := torque_dead_zone
    admittance_weight := admittance_weight
    max_vel := maximum_velocity
    max_acc := maximum_acceleration
    use_feedback_velocity := use_feedback_velocity
    inertia_reduction := inertia_reduction
    use_ur_real_robot := use_ur_real_robot
    joint_state := { name := [], position := [], velocity := [], effort := [] }
    joint_position := 0
    joint_velocity := 0
    external_wrench := 0
    x_dot := 0
    q_dot := 0
    x_dot_last_cycle := 0
    q_dot_last_cycle := 0
    J := 0
    force_callback := false
    joint_state_callback := false }

/-! ## Callbacks -/

/-- One dead-zone loop of `force_sensor_Callback` (source line 89 or 90): for each index of
`idx` in turn, the component is set to zero when its magnitude is below the magnitude of the
threshold. -/
def dead_zone_loop (dead_zone : ℚ) (idx : List (Fin 6)) (external_wrench : Vector6d) : Vector6d :=
  idx.foldl
    (fun w i => if fabs (w i) < fabs dead_zone then Function.update w i 0 else w)
    external_wrench

/-- Source lines 89-90: the force loop over indices 0..2 followed by the torque loop over
indices 3..5. -/
def dead_zone (force_dead_zone torque_dead_zone : ℚ) (external_wrench : Vector6d) : Vector6d :=
  dead_zone_loop torque_dead_zone [3, 4, 5]
    (dead_zone_loop force_dead_zone [0, 1, 2] external_wrench)

/-- The six scalars of a wrench message in the order of source lines 80-85. -/
def raw_wrench (msg : WrenchStamped) : Vector6d :=
  ![msg.wrench.force.x, msg.wrench.force.y, msg.wrench.force.z,
    msg.wrench.torque.x, msg.wrench.torque.y, msg.wrench.torque.z]

/-- Source lines 76-96, `force_sensor_Callback`. -/
def force_sensor_Callback (s : State) (msg : WrenchStamped) : State :=
  { s with
    external_wrench := dead_zone s.force_dead_zone s.torque_dead_zone (raw_wrench msg)
    force_callback := true }

/-- The call `std::swap(v[0], v[2])` on a `std::vector`; `none` when an index is out of range
(undefined behaviour in C++). -/
def swap_0_2 {α : Type} (v : List α) : Option (List α) :=
  match v[0]?, v[2]? with
  | some a, some c => some ((v.set 0 c).set 2 a)
  | _, _ => none

/-- The copy loops of source lines 112-113, started at index `i`: `dst[i] = src[i]` up to the
size of the source; `none` when an index leaves the six-element destination. -/
def copy_loop : List ℚ → Nat → Vector6d → Option Vector6d
  | [], _, dst => some dst
  | x :: rest, i, dst =>
    if h : i < 6 then copy_loop rest (i + 1) (Function.update dst ⟨i, h⟩ x) else none

/-- Source lines 103-110: the four swaps applied when `use_ur_real_robot` is set. -/
def swap_joints (use_ur_real_robot : Bool) (msg : JointState) : Option JointState :=
  if use_ur_real_robot then do
    let name ← swap_0_2 msg.name
    let effort ← swap_0_2 msg.effort
    let position ← swap_0_2 msg.position
    let velocity ← swap_0_2 msg.velocity
    pure { name := name, position := position, velocity := velocity, effort := effort }
  else
    pure msg

/-- Source lines 98-119, `joint_states_Callback`. -/
def joint_states_Callback (s : State) (msg : JointState) : Option State := do
  let joint_state ← swap_joints s.use_ur_real_robot msg
  let joint_position ← copy_loop joint_state.position 0 s.joint_position
  let joint_velocity ← copy_loop joint_state.velocity 0 s.joint_velocity
  pure { s with
    joint_state := joint_state
    joint_position := joint_position
    joint_velocity := joint_velocity
    joint_state_callback := true }

/-! ## Limiting and inertia reduction -/

/-- Source lines 271-280: the velocity loop of `limit_joint_dynamics`. -/
def limit_velocity_loop (max_vel : Vector6d) (joint_velocity : Vector6d) : Vector6d :=
  (List.finRange 6).foldl
    (fun jv i =>
      if fabs (jv i) > max_vel i then
        Function.update jv i ((sign (jv i) : ℚ) * max_vel i)
      else jv)
    joint_velocity

/-- Source lines 284-293: the acceleration loop of `limit_joint_dynamics`. -/
def limit_acceleration_loop (max_acc q_dot_last_cycle : Vector6d) (duration : ℚ)
    (joint_velocity : Vector6d) : Vector6d :=
  (List.finRange 6).foldl
    (fun jv i =>
      if fabs (jv i - q_dot_last_cycle i) > max_acc i * duration then
        Function.update jv i
          (q_dot_last_cycle i + (sign (jv i - q_dot_last_cycle i) : ℚ) * max_acc i * duration)
      else jv)
    joint_velocity

/-- Source lines 265-298, `limit_joint_dynamics`: the returned vector and the state left
behind. -/
def limit_joint_dynamics (s : State) (joint_velocity : Vector6d) : Vector6d × State :=
  let duration := s.loop_rate.expectedCycleTime
  let joint_velocity := limit_velocity_loop s.max_vel joint_velocity
  let joint_velocity := limit_acceleration_loop s.max_acc s.q_dot_last_cycle duration joint_velocity
  (joint_velocity, { s with q_dot_last_cycle := joint_velocity })

/-- Source lines 305-310: the loop filling the `reduction` array. -/
def reduction_loop (wrench : Vector6d) (reduction : Vector6d) : Vector6d :=
  (List.finRange 6).foldl
    (fun r i => if wrench i = 0 then Function.update r i 0 else Function.update r i 1)
    reduction

/-- Source lines 300-318, `compute_inertia_reduction`: the velocity array multiplied
coefficient-wise by the `reduction` array. -/
def compute_inertia_reduction (velocity wrench : Vector6d) : Vector6d :=
  let reduction := reduction_loop wrench 0
  fun i => velocity i * reduction i

/-! ## Admittance cycle -/

/-- Source lines 222-235: the cartesian velocity the cycle starts from. -/
def start_velocity (s : State) (J : Matrix6d) : Vector6d :=
  if s.use_feedback_velocity then J.mulVec s.joint_velocity else s.x_dot_last_cycle

/-- Source lines 238-239: the local `arm_desired_accelaration_cartesian`. -/
def arm_desired_accelaration_cartesian (s : State) (rotation : Matrix6d) (x_dot : Vector6d) :
    Vector6d :=
  (inverse s.mass_matrix).mulVec
    ((-s.damping_matrix).mulVec x_dot
      + s.admittance_weight • rotation.mulVec s.external_wrench)

/-- Source lines 222-244: `x_dot` after the integration step, before inertia reduction. -/
def integrated_velocity (s : State) (J rotation : Matrix6d) : Vector6d :=
  let x_dot := start_velocity s J
  let acc := arm_desired_accelaration_cartesian s rotation x_dot
  fun i => x_dot i + acc i * s.loop_rate.expectedCycleTime

/-- Source lines 215-259, `compute_admittance`. `jacobian` is what `compute_arm_jacobian`
returned and `rotation` what `get_ee_rotation_matrix` returned in this cycle. -/
def compute_admittance (s : State) (jacobian rotation : Matrix6d) : State :=
  let s := { s with J := jacobian }
  let x_dot := integrated_velocity s s.J rotation
  let x_dot := compute_inertia_reduction x_dot s.external_wrench
  let q_dot := (inverse s.J).mulVec x_dot
  let r := limit_joint_dynamics s q_dot
  { r.2 with x_dot := x_dot, q_dot := r.1, x_dot_last_cycle := r.2.J.mulVec r.1 }

/-- What one cycle reads from outside the controller: the kinematics of the current
configuration and the members last written by the callbacks. -/
structure CycleInput where
  jacobian : Matrix6d
  rotation : Matrix6d
  external_wrench : Vector6d
  joint_position : Vector6d
  joint_velocity : Vector6d

/-- Source lines 374-384, `spinner`: the callbacks leave their members, then
`compute_admittance` runs; the published command is the `q_dot` of the result. -/
def spinner (s : State) (c : CycleInput) : State :=
  compute_admittance
    { s with
      external_wrench := c.external_wrench
      joint_position := c.joint_position
      joint_velocity := c.joint_velocity }
    c.jacobian c.rotation

/-- The states after each of a sequence of `spinner` cycles, in order. -/
def spin : State → List CycleInput → List State
  | _, [] => []
  | s, c :: cs => spinner s c :: spin (spinner s c) cs

/-- Eigen `inverse()` with its precondition: the result is defined only for a matrix with
non-zero determinant, where it is `inverse`; `none` stands for the undefined result on a
singular matrix. -/
def checked_inverse (A : Matrix6d) : Option Matrix6d :=
  if A.det = 0 then none else some (inverse A)

/-- The cycle `compute_admittance` with the preconditions of its two `inverse()` calls, on the
mass matrix (source line 238) and on the Jacobian (source line 250): `none` when either is
undefined, otherwise the state `compute_admittance` leaves. -/
def checked_compute_admittance (s : State) (jacobian rotation : Matrix6d) : Option State :=
  (checked_inverse s.mass_matrix).bind fun _ =>
    (checked_inverse jacobian).bind fun _ =>
      some (compute_admittance s jacobian rotation)

/-- The cycle `spinner` with the preconditions of the `inverse()` calls. -/
def checked_spinner (s : State) (c : CycleInput) : Option State :=
  checked_compute_admittance
    { s with
      external_wrench := c.external_wrench
      joint_position := c.joint_position
      joint_velocity := c.joint_velocity }
    c.jacobian c.rotation

/-- The states after each of a sequence of `checked_spinner` cycles, in order; `none` as soon
as one cycle is undefined. -/
def checked_spin : State → List CycleInput → Option (List State)
  | _, [] => some []
  | s, c :: cs =>
    (checked_spinner s c).bind fun t =>
      (checked_spin t cs).bind fun ts => some (t :: ts)

/-- The commands returned by a sequence of `limit_joint_dynamics` calls, in order, each call
starting from the state the previous one left. -/
def limit_run : State → List Vector6d → List Vector6d
  | _, [] => []
  | s, q :: qs => (limit_joint_dynamics s q).1 :: limit_run (limit_joint_dynamics s q).2 qs

/-- The body of the velocity loop (source lines 273-278) as a function of one joint's value. -/
def clamp_velocity (max_vel q : ℚ) : ℚ :=
  if fabs q > max_vel then (sign q : ℚ) * max_vel else q

/-- The body of the acceleration loop (source lines 286-291) as a function of one joint's
value `v` and previous command `p`. -/
def clamp_acceleration (max_acc duration p v : ℚ) : ℚ :=
  if fabs (v - p) > max_acc * duration then p + (sign (v - p) : ℚ) * max_acc * duration else v

/-! ## The limiter as the specification words it -/

/-- The two-valued sign of the specification: `sign(0)` is `+1`. -/
def spec_sign (x : ℚ) : ℚ :=
  if x < 0 then -1 else 1

/-- Section 4.7 of the specification for one joint: the velocity clamp of `q` against
`max_vel`, then the acceleration clamp of the clamped value against the previous command `p`. -/
def spec_limit (max_vel max_acc dt p q : ℚ) : ℚ :=
  let v := if |q| > max_vel then spec_sign q * max_vel else q
  let d := v - p
  if |d| > max_acc * dt then p + spec_sign d * max_acc * dt else v

/-! ## Concrete configurations -/

/-- A controller with cycle time 0.01 s, velocity limit 1 and acceleration limit 2 on every
joint, as the constructor leaves it. -/
def limiter_example : State :=
  admittance_controller { expectedCycleTime := 1 / 100 } 1 1 2 2 1 (fun _ => 1) (fun _ => 2)
    false false false

/-- The admittance scenario: `M = diag(10,10,10,1,1,1)`, `D = diag(50,50,50,5,5,5)`, weight 1,
cycle time 0.002 s, dead zones 2, open-loop mode, conditioned wrench `(10,0,0,0,0,0)`. -/
def admittance_example : State :=
  { admittance_controller { expectedCycleTime := 2 / 1000 }
      (Matrix.diagonal ![10, 10, 10, 1, 1, 1]) (Matrix.diagonal ![50, 50, 50, 5, 5, 5])
      2 2 1 (fun _ => 1) (fun _ => 2) false false false with
    external_wrench := ![10, 0, 0, 0, 0, 0] }

/-- The controller of `limiter_example` switched to feedback mode. -/
def feedback_example : State :=
  { limiter_example with use_feedback_velocity := true }

/-- A cycle with identity kinematics, zero conditioned wrench and a measured joint velocity of
3 on every joint. -/
def moving_cycle : CycleInput :=
  { jacobian := 1
    rotation := 1
    external_wrench := 0
    joint_position := 0
    joint_velocity := fun _ => 3 }

/-- The cycle `moving_cycle` at a singular configuration: the Jacobian is the zero matrix. -/
def singular_cycle : CycleInput :=
  { moving_cycle with jacobian := 0 }

/-- The controller of `limiter_example` configured for the real UR robot. -/
def ur_example : State :=
  { limiter_example with use_ur_real_robot := true }

/-- A wrench sample with force `(1, 0, 0)` and no torque. -/
def small_force : WrenchStamped :=
  { wrench := { force := { x := 1, y := 0, z := 0 }, torque := { x := 0, y := 0, z := 0 } } }

/-- A joint-state sample with six distinguishable joints. -/
def joint_sample : JointState :=
  { name := ["a", "b", "c", "d", "e", "f"]
    position := [1, 2, 3, 4, 5, 6]
    velocity := [10, 20, 30, 40, 50, 60]
    effort := [7, 8, 9, 10, 11, 12] }

/-- The standard interval clamp, `clamp(x, lo, hi) = max(lo, min(hi, x))`. -/
def clamp (x lo hi : ℚ) : ℚ :=
  max lo (min hi x)

/-! ## Loops, component by component -/

/-- A loop that rewrites component `i` from its own current value, run over distinct indices,
leaves at each visited index the rewritten original value and keeps the other components. -/
theorem foldl_update_apply (g : Fin 6 → ℚ → ℚ) (idx : List (Fin 6)) (hnd : idx.Nodup)
    (v : Vector6d) (j : Fin 6) :
    (idx.foldl (fun w i => Function.update w i (g i (w i))) v) j
      = if j ∈ idx then g j (v j) else v j := by
  induction idx generalizing v with
  | nil => simp
  | cons a rest ih =>
    rw [List.nodup_cons] at hnd
    rw [List.foldl_cons, ih hnd.2]
    by_cases hja : j = a
    · subst hja
      simp [hnd.1]
    · have haj : a ≠ j := fun h => hja h.symm
      simp [hja, Function.update_noteq hja]

/-- A guarded store is a store of a guarded value. -/
theorem ite_update (c : Prop) [Decidable c] (v : Vector6d) (i : Fin 6) (x : ℚ) :
    (if c then Function.update v i x else v) = Function.update v i (if c then x else v i) := by
  split
  · rfl
  · simp

theorem limit_velocity_loop_apply (max_vel q : Vector6d) (i : Fin 6) :
    limit_velocity_loop max_vel q i = clamp_velocity (max_vel i) (q i) := by
  unfold limit_velocity_loop
  simp only [ite_update]
  rw [foldl_update_apply (fun i x => if fabs x > max_vel i then (sign x : ℚ) * max_vel i else x)
    _ (List.nodup_finRange 6)]
  simp [clamp_velocity]

theorem limit_acceleration_loop_apply (max_acc p : Vector6d) (duration : ℚ) (v : Vector6d)
    (i : Fin 6) :
    limit_acceleration_loop max_acc p duration v i
      = clamp_acceleration (max_acc i) duration (p i) (v i) := by
  unfold limit_acceleration_loop
  simp only [ite_update]
  rw [foldl_update_apply
    (fun i x => if fabs (x - p i) > max_acc i * duration
      then p i + (sign (x - p i) : ℚ) * max_acc i * duration else x)
    _ (List.nodup_finRange 6)]
  simp [clamp_acceleration]

theorem limit_joint_dynamics_apply (s : State) (q : Vector6d) (i : Fin 6) :
    (limit_joint_dynamics s q).1 i
      = clamp_acceleration (s.max_acc i) s.loop_rate.expectedCycleTime (s.q_dot_last_cycle i)
          (clamp_velocity (s.max_vel i) (q i)) := by
  simp [limit_joint_dynamics, limit_acceleration_loop_apply, limit_velocity_loop_apply]

theorem dead_zone_loop_apply (t : ℚ) (idx : List (Fin 6)) (hnd : idx.Nodup) (w : Vector6d)
    (j : Fin 6) :
    dead_zone_loop t idx w j = if j ∈ idx then (if fabs (w j) < fabs t then 0 else w j) else w j := by
  unfold dead_zone_loop
  simp only [ite_update]
  rw [foldl_update_apply (fun _ x => if fabs x < fabs t then 0 else x) _ hnd]

theorem reduction_loop_apply (wrench r : Vector6d) (i : Fin 6) :
    reduction_loop wrench r i = if wrench i = 0 then 0 else 1 := by
  unfold reduction_loop
  have h : ∀ (r : Vector6d) (i : Fin 6),
      (if wrench i = 0 then Function.update r i 0 else Function.update r i 1)
        = Function.update r i (if wrench i = 0 then (0 : ℚ) else 1) := by
    intro r i
    split <;> rfl
  simp only [h]
  rw [foldl_update_apply (fun i _ => if wrench i = 0 then (0 : ℚ) else 1) _
    (List.nodup_finRange 6)]
  simp

theorem compute_inertia_reduction_apply (v w : Vector6d) (i : Fin 6) :
    compute_inertia_reduction v w i = if w i = 0 then 0 else v i := by
  simp only [compute_inertia_reduction, reduction_loop_apply]
  split <;> simp

/-! ## Bounds of the two clamps -/

theorem sign_cast_of_nonneg {x : ℚ} (h : 0 ≤ x) : ((sign x : ℤ) : ℚ) = 1 := by
  simp [sign, h]

theorem sign_cast_of_neg {x : ℚ} (h : x < 0) : ((sign x : ℤ) : ℚ) = -1 := by
  simp [sign, not_le.mpr h]

theorem clamp_velocity_abs_le (m q : ℚ) (hm : 0 ≤ m) : |clamp_velocity m q| ≤ m := by
  unfold clamp_velocity fabs
  split
  · rcases le_or_lt 0 q with hq | hq
    · rw [sign_cast_of_nonneg hq, one_mul, abs_of_nonneg hm]
    · rw [sign_cast_of_neg hq, neg_one_mul, abs_neg, abs_of_nonneg hm]
  · next h => exact not_lt.mp h

theorem clamp_acceleration_sub_abs_le (a dt p v : ℚ) (ha : 0 ≤ a * dt) :
    |clamp_acceleration a dt p v - p| ≤ a * dt := by
  unfold clamp_acceleration fabs
  split
  · rcases le_or_lt 0 (v - p) with hd | hd
    · rw [sign_cast_of_nonneg hd]
      have e : p + 1 * a * dt - p = a * dt := by ring
      rw [e, abs_of_nonneg ha]
    · rw [sign_cast_of_neg hd]
      have e : p + -1 * a * dt - p = -(a * dt) := by ring
      rw [e, abs_neg, abs_of_nonneg ha]
  · next h => exact not_lt.mp h

theorem clamp_acceleration_abs_le (a dt p v m : ℚ) (ha : 0 ≤ a * dt) (hp : |p| ≤ m)
    (hv : |v| ≤ m) : |clamp_acceleration a dt p v| ≤ m := by
  unfold clamp_acceleration fabs
  rw [abs_le] at hp hv
  split
  · next h =>
    rcases le_or_lt 0 (v - p) with hd | hd
    · rw [sign_cast_of_nonneg hd, abs_le]
      rw [abs_of_nonneg hd] at h
      constructor <;> linarith
    · rw [sign_cast_of_neg hd, abs_le]
      rw [abs_of_neg hd] at h
      constructor <;> linarith
  · exact abs_le.mpr hv

/-- One call of the limiter keeps the stored command inside the velocity bound and returns a
command inside it. -/
theorem limit_joint_dynamics_bounded (s : State) (q : Vector6d)
    (hv : ∀ i, 0 ≤ s.max_vel i) (ha : ∀ i, 0 ≤ s.max_acc i * s.loop_rate.expectedCycleTime)
    (hp : ∀ i, |s.q_dot_last_cycle i| ≤ s.max_vel i) (i : Fin 6) :
    |(limit_joint_dynamics s q).1 i| ≤ s.max_vel i := by
  rw [limit_joint_dynamics_apply]
  exact clamp_acceleration_abs_le _ _ _ _ _ (ha i) (hp i) (clamp_velocity_abs_le _ _ (hv i))

theorem limit_run_bounded (s : State) (qs : List Vector6d)
    (hv : ∀ i, 0 ≤ s.max_vel i) (ha : ∀ i, 0 ≤ s.max_acc i * s.loop_rate.expectedCycleTime)
    (hp : ∀ i, |s.q_dot_last_cycle i| ≤ s.max_vel i) :
    ∀ c ∈ limit_run s qs, ∀ i, |c i| ≤ s.max_vel i := by
  induction qs generalizing s with
  | nil => simp [limit_run]
  | cons q rest ih =>
    intro c hc i
    rw [limit_run, List.mem_cons] at hc
    rcases hc with rfl | hc
    · exact limit_joint_dynamics_bounded s q hv ha hp i
    · exact ih (limit_joint_dynamics s q).2 hv ha
        (fun j => limit_joint_dynamics_bounded s q hv ha hp j) c hc i

/-! ## The claims -/

/-- C1. Velocity-clamp invariant: from the state the constructor leaves (previous command
zero), with every velocity limit non-negative and every `max_acc[i] * dt` non-negative, every
command returned along any finite sequence of `limit_joint_dynamics` calls with arbitrary inputs
has `|command[i]| ≤ max_vel[i]` for all six joints. -/
theorem velocity_clamp_invariant (ros_rate : Rate) (mass damping : Matrix6d)
    (force_dead_zone torque_dead_zone admittance_weight : ℚ)
    (maximum_velocity maximum_acceleration : Vector6d)
    (use_feedback_velocity inertia_reduction use_ur_real_robot : Bool)
    (hv : ∀ i, 0 ≤ maximum_velocity i)
    (ha : ∀ i, 0 ≤ maximum_acceleration i * ros_rate.expectedCycleTime)
    (qs : List Vector6d) :
    ∀ c ∈ limit_run
        (admittance_controller ros_rate mass damping force_dead_zone torque_dead_zone
          admittance_weight maximum_velocity maximum_acceleration use_feedback_velocity
          inertia_reduction use_ur_real_robot) qs,
      ∀ i, |c i| ≤ maximum_velocity i := by
  intro c hc i
  exact limit_run_bounded
    (admittance_controller ros_rate mass damping force_dead_zone torque_dead_zone
      admittance_weight maximum_velocity maximum_acceleration use_feedback_velocity
      inertia_reduction use_ur_real_robot) qs hv ha
    (fun j => by simpa [admittance_controller] using hv j) c hc i

/-- C2. Acceleration-clamp invariant: for any input and any stored previous command, when
`max_acc[i] * dt` is non-negative the returned command differs from the previous command stored
before the call by at most `max_acc[i] * dt`, for all six joints. -/
theorem acceleration_clamp_invariant (s : State) (q : Vector6d)
    (ha : ∀ i, 0 ≤ s.max_acc i * s.loop_rate.expectedCycleTime) :
    ∀ i, |(limit_joint_dynamics s q).1 i - s.q_dot_last_cycle i|
      ≤ s.max_acc i * s.loop_rate.expectedCycleTime := by
  intro i
  rw [limit_joint_dynamics_apply]
  exact clamp_acceleration_sub_abs_le _ _ _ _ (ha i)

/-- C2 at a concrete call: limits 2 and cycle time 0.01, previous command zero, input 5 on
every joint. -/
theorem acceleration_clamp_invariant_witness :
    (∀ i, 0 ≤ limiter_example.max_acc i * limiter_example.loop_rate.expectedCycleTime)
      ∧ ∀ i, |(limit_joint_dynamics limiter_example (fun _ => 5)).1 i
            - limiter_example.q_dot_last_cycle i|
          ≤ limiter_example.max_acc i * limiter_example.loop_rate.expectedCycleTime :=
  ⟨fun _ => by norm_num [limiter_example, admittance_controller],
   acceleration_clamp_invariant limiter_example (fun _ => 5)
     (fun _ => by norm_num [limiter_example, admittance_controller])⟩

/-- C1 at a concrete run: limit 1 on every joint, acceleration limit 2, cycle time 0.01, and
the inputs 5 then -7 on every joint. -/
theorem velocity_clamp_invariant_witness :
    (∀ i : Fin 6, (0 : ℚ) ≤ (fun _ => 1 : Vector6d) i)
      ∧ (∀ i : Fin 6, (0 : ℚ) ≤ (fun _ => 2 : Vector6d) i * (1 / 100))
      ∧ ∀ c ∈ limit_run
          (admittance_controller { expectedCycleTime := 1 / 100 } 1 1 2 2 1 (fun _ => 1)
            (fun _ => 2) false false false) [fun _ => 5, fun _ => -7],
        ∀ i, |c i| ≤ (fun _ => 1 : Vector6d) i :=
  ⟨fun _ => by norm_num, fun _ => by norm_num,
   velocity_clamp_invariant { expectedCycleTime := 1 / 100 } 1 1 2 2 1 (fun _ => 1)
     (fun _ => 2) false false false (fun _ => by norm_num) (fun _ => by norm_num)
     [fun _ => 5, fun _ => -7]⟩

/-- C3, the claim as written fails: with the force dead zone configured as -2 and a raw force
of 1 on the x axis, the raw magnitude is at or above the threshold and yet the stored component
is 0, not the raw value. -/
theorem dead_zone_signed_threshold_fails :
    ({ limiter_example with force_dead_zone := -2 } : State).force_dead_zone
        ≤ |raw_wrench small_force 0|
      ∧ raw_wrench small_force 0 = 1
      ∧ (force_sensor_Callback { limiter_example with force_dead_zone := -2 }
          small_force).external_wrench 0 = 0
      ∧ (force_sensor_Callback { limiter_example with force_dead_zone := -2 }
          small_force).external_wrench 0 ≠ raw_wrench small_force 0 := by
  have h : (force_sensor_Callback { limiter_example with force_dead_zone := -2 }
      small_force).external_wrench 0 = 0 := by
    simp only [force_sensor_Callback, dead_zone]
    rw [dead_zone_loop_apply _ _ (by decide), dead_zone_loop_apply _ _ (by decide)]
    norm_num [raw_wrench, small_force, fabs]
  refine ⟨by norm_num [raw_wrench, small_force], by simp [raw_wrench, small_force], h, ?_⟩
  rw [h]
  simp [raw_wrench, small_force]

/-- C3, amended. Dead-zone conditioning in `force_sensor_Callback` compares magnitudes: each
force component (index 0..2) of the stored wrench is exactly 0 when `|raw[i]|` is below the
absolute value of the force threshold and equals `raw[i]` when `|raw[i]|` is at or above it;
each torque component (index 3..5) behaves the same with the absolute value of the torque
threshold. -/
theorem dead_zone_conditioning (s : State) (msg : WrenchStamped) :
    (∀ i : Fin 6, i.val < 3 →
        (|raw_wrench msg i| < |s.force_dead_zone| →
            (force_sensor_Callback s msg).external_wrench i = 0)
          ∧ (|s.force_dead_zone| ≤ |raw_wrench msg i| →
            (force_sensor_Callback s msg).external_wrench i = raw_wrench msg i))
      ∧ (∀ i : Fin 6, 3 ≤ i.val →
        (|raw_wrench msg i| < |s.torque_dead_zone| →
            (force_sensor_Callback s msg).external_wrench i = 0)
          ∧ (|s.torque_dead_zone| ≤ |raw_wrench msg i| →
            (force_sensor_Callback s msg).external_wrench i = raw_wrench msg i)) := by
  simp only [force_sensor_Callback, dead_zone]
  constructor
  · intro i hi
    rw [dead_zone_loop_apply _ _ (by decide), dead_zone_loop_apply _ _ (by decide)]
    have h1 : i ∈ ([0, 1, 2] : List (Fin 6)) := by
      fin_cases i <;> simp at hi ⊢
    have h2 : i ∉ ([3, 4, 5] : List (Fin 6)) := by
      fin_cases i <;> simp at hi ⊢
    simp only [h1, h2, if_true, if_false, fabs]
    constructor
    · intro h
      simp [h]
    · intro h
      simp [not_lt.mpr h]
  · intro i hi
    rw [dead_zone_loop_apply _ _ (by decide), dead_zone_loop_apply _ _ (by decide)]
    have h1 : i ∉ ([0, 1, 2] : List (Fin 6)) := by
      fin_cases i <;> simp at hi ⊢
    have h2 : i ∈ ([3, 4, 5] : List (Fin 6)) := by
      fin_cases i <;> simp at hi ⊢
    simp only [h1, h2, if_true, if_false, fabs]
    constructor
    · intro h
      simp [h]
    · intro h
      simp [not_lt.mpr h]

/-- C4. Inertia reduction is an exact elementwise mask: component `i` of
`compute_inertia_reduction v w` is 0 when `w[i] == 0` and `v[i]` otherwise. -/
theorem inertia_reduction_mask (v w : Vector6d) (i : Fin 6) :
    compute_inertia_reduction v w i = if w i = 0 then 0 else v i :=
  compute_inertia_reduction_apply v w i

/-! ## The inverse -/

/-- Any right inverse of a matrix is what `inverse` computes. -/
theorem inverse_eq_of_mul_eq_one (A B : Matrix6d) (h : A * B = 1) : inverse A = B := by
  unfold inverse
  rw [← Ring.inverse_eq_inv', ← Matrix.inv_def]
  exact Matrix.inv_eq_right_inv h

/-- On a matrix with non-zero determinant `inverse` is a left inverse. -/
theorem inverse_mul_cancel (A : Matrix6d) (h : A.det ≠ 0) : inverse A * A = 1 := by
  unfold inverse
  rw [← Ring.inverse_eq_inv', ← Matrix.inv_def]
  exact Matrix.nonsing_inv_mul A (isUnit_iff_ne_zero.mpr h)

/-- On a matrix with non-zero determinant `inverse` is a right inverse. -/
theorem mul_inverse_cancel (A : Matrix6d) (h : A.det ≠ 0) : A * inverse A = 1 := by
  unfold inverse
  rw [← Ring.inverse_eq_inv', ← Matrix.inv_def]
  exact Matrix.mul_nonsing_inv A (isUnit_iff_ne_zero.mpr h)

/-- C5. Admittance law and forward-Euler step: with `N` the inverse of the mass matrix and
`x0` the start velocity (`J * joint_velocity` in feedback mode, `x_dot_last_cycle` in open-loop
mode), the acceleration is `N * (-D * x0 + k * (R * w))`, the cartesian velocity before inertia
reduction is `x0 + dt * N * (-D * x0 + k * (R * w))`, and that is the velocity
`compute_admittance` hands to the inertia reduction. -/
theorem admittance_law (s : State) (J R N : Matrix6d) (hN : s.mass_matrix * N = 1) :
    start_velocity s J
        = (if s.use_feedback_velocity = true then J.mulVec s.joint_velocity
            else s.x_dot_last_cycle)
      ∧ arm_desired_accelaration_cartesian s R (start_velocity s J)
        = N.mulVec (-(s.damping_matrix.mulVec (start_velocity s J))
            + s.admittance_weight • R.mulVec s.external_wrench)
      ∧ integrated_velocity s J R
        = start_velocity s J + s.loop_rate.expectedCycleTime •
            N.mulVec (-(s.damping_matrix.mulVec (start_velocity s J))
              + s.admittance_weight • R.mulVec s.external_wrench)
      ∧ (compute_admittance s J R).x_dot
        = compute_inertia_reduction
            (start_velocity s J + s.loop_rate.expectedCycleTime •
              N.mulVec (-(s.damping_matrix.mulVec (start_velocity s J))
                + s.admittance_weight • R.mulVec s.external_wrench))
            s.external_wrench := by
  have hacc : arm_desired_accelaration_cartesian s R (start_velocity s J)
      = N.mulVec (-(s.damping_matrix.mulVec (start_velocity s J))
          + s.admittance_weight • R.mulVec s.external_wrench) := by
    unfold arm_desired_accelaration_cartesian
    rw [inverse_eq_of_mul_eq_one _ _ hN, Matrix.neg_mulVec]
  have hint : integrated_velocity s J R
      = start_velocity s J + s.loop_rate.expectedCycleTime •
          N.mulVec (-(s.damping_matrix.mulVec (start_velocity s J))
            + s.admittance_weight • R.mulVec s.external_wrench) := by
    funext i
    simp only [integrated_velocity, hacc, Pi.add_apply, Pi.smul_apply, smul_eq_mul]
    ring
  refine ⟨rfl, hacc, hint, ?_⟩
  rw [← hint]
  rfl

/-- C5 at the scenario of the specification: `M = diag(10,10,10,1,1,1)`,
`D = diag(50,50,50,5,5,5)`, `k = 1`, `dt = 0.002`, `w = (10,0,0,0,0,0)`, previous velocity zero,
`R` the identity: acceleration component 0 is 1 and the new velocity is `(0.002,0,0,0,0,0)`. -/
theorem admittance_law_witness :
    admittance_example.mass_matrix * Matrix.diagonal ![1 / 10, 1 / 10, 1 / 10, 1, 1, 1] = 1
      ∧ start_velocity admittance_example 0 = 0
      ∧ arm_desired_accelaration_cartesian admittance_example 1
          (start_velocity admittance_example 0) 0 = 1
      ∧ integrated_velocity admittance_example 0 1 = ![2 / 1000, 0, 0, 0, 0, 0] := by
  have hN : admittance_example.mass_matrix
      * Matrix.diagonal ![1 / 10, 1 / 10, 1 / 10, 1, 1, 1] = 1 := by
    have hf : (fun i : Fin 6 => (![10, 10, 10, 1, 1, 1] : Vector6d) i
        * (![1 / 10, 1 / 10, 1 / 10, 1, 1, 1] : Vector6d) i) = fun _ => 1 := by
      funext i
      fin_cases i <;> norm_num [Matrix.vecHead, Matrix.vecTail]
    simp only [admittance_example, admittance_controller, Matrix.diagonal_mul_diagonal]
    rw [hf, Matrix.diagonal_one]
  have h := admittance_law admittance_example 0 1 _ hN
  have hx : start_velocity admittance_example 0 = 0 := by
    simp [start_velocity, admittance_example, admittance_controller]
  refine ⟨hN, hx, ?_, ?_⟩
  · rw [h.2.1, hx]
    simp [admittance_example, admittance_controller, Matrix.mulVec_diagonal]
  · rw [h.2.2.1, hx]
    funext i
    fin_cases i <;>
      norm_num [admittance_example, admittance_controller, Matrix.mulVec_diagonal,
        Matrix.vecHead, Matrix.vecTail]

/-! ## Zero input -/

theorem compute_inertia_reduction_zero_wrench (v : Vector6d) :
    compute_inertia_reduction v 0 = 0 := by
  funext i
  simp [compute_inertia_reduction_apply]

theorem limit_joint_dynamics_zero (s : State) (hq : s.q_dot_last_cycle = 0)
    (hv : ∀ i, 0 ≤ s.max_vel i) (ha : ∀ i, 0 ≤ s.max_acc i * s.loop_rate.expectedCycleTime) :
    (limit_joint_dynamics s 0).1 = 0 := by
  funext i
  rw [limit_joint_dynamics_apply, hq]
  have h1 : clamp_velocity (s.max_vel i) ((0 : Vector6d) i) = 0 := by
    simp [clamp_velocity, fabs, not_lt.mpr (hv i)]
  rw [h1]
  simp [clamp_acceleration, fabs, not_lt.mpr (ha i)]

theorem checked_inverse_of_det_ne_zero (A : Matrix6d) (h : A.det ≠ 0) :
    checked_inverse A = some (inverse A) := by
  simp [checked_inverse, h]

theorem checked_inverse_zero : checked_inverse 0 = none := by
  simp [checked_inverse, Matrix.det_zero ⟨(0 : Fin 6)⟩]

/-- One defined cycle with a zero conditioned wrench and a zero previous joint command: both
`inverse()` calls are defined, the zero command is emitted and both persistent vectors are left
zero. -/
theorem checked_compute_admittance_zero (s : State) (J R : Matrix6d)
    (hM : s.mass_matrix.det ≠ 0) (hJ : J.det ≠ 0) (hw : s.external_wrench = 0)
    (hq : s.q_dot_last_cycle = 0) (hv : ∀ i, 0 ≤ s.max_vel i)
    (ha : ∀ i, 0 ≤ s.max_acc i * s.loop_rate.expectedCycleTime) :
    checked_compute_admittance s J R = some (compute_admittance s J R)
      ∧ (compute_admittance s J R).q_dot = 0
      ∧ (compute_admittance s J R).x_dot_last_cycle = 0
      ∧ (compute_admittance s J R).q_dot_last_cycle = 0 := by
  have h0 : checked_compute_admittance s J R = some (compute_admittance s J R) := by
    simp [checked_compute_admittance, checked_inverse_of_det_ne_zero _ hM,
      checked_inverse_of_det_ne_zero _ hJ]
  have h : (compute_admittance s J R).q_dot = 0 := by
    simp only [compute_admittance, hw, compute_inertia_reduction_zero_wrench,
      Matrix.mulVec_zero]
    exact limit_joint_dynamics_zero { s with J := J } hq hv ha
  have h2 : (compute_admittance s J R).q_dot_last_cycle = (compute_admittance s J R).q_dot := rfl
  have h3 : (compute_admittance s J R).x_dot_last_cycle
      = J.mulVec (compute_admittance s J R).q_dot := rfl
  refine ⟨h0, h, ?_, ?_⟩
  · rw [h3, h, Matrix.mulVec_zero]
  · rw [h2, h]

theorem spin_length (s : State) (cs : List CycleInput) : (spin s cs).length = cs.length := by
  induction cs generalizing s with
  | nil => rfl
  | cons c rest ih => simp [spin, ih (spinner s c)]

theorem checked_spin_zero (s : State) (cs : List CycleInput)
    (hM : s.mass_matrix.det ≠ 0) (hq : s.q_dot_last_cycle = 0) (hv : ∀ i, 0 ≤ s.max_vel i)
    (ha : ∀ i, 0 ≤ s.max_acc i * s.loop_rate.expectedCycleTime)
    (hw : ∀ c ∈ cs, c.external_wrench = 0) (hJ : ∀ c ∈ cs, c.jacobian.det ≠ 0) :
    checked_spin s cs = some (spin s cs)
      ∧ ∀ t ∈ spin s cs, t.q_dot = 0 ∧ t.x_dot_last_cycle = 0 ∧ t.q_dot_last_cycle = 0 := by
  induction cs generalizing s with
  | nil => simp [checked_spin, spin]
  | cons c rest ih =>
    have hload : ({ s with
        external_wrench := c.external_wrench
        joint_position := c.joint_position
        joint_velocity := c.joint_velocity } : State).mass_matrix = s.mass_matrix := rfl
    have hstep := checked_compute_admittance_zero
      { s with
        external_wrench := c.external_wrench
        joint_position := c.joint_position
        joint_velocity := c.joint_velocity }
      c.jacobian c.rotation (by rw [hload]; exact hM) (hJ c (List.mem_cons_self c rest))
      (hw c (List.mem_cons_self c rest)) hq hv ha
    have hmass : (spinner s c).mass_matrix = s.mass_matrix := rfl
    have hrest := ih (spinner s c) (by rw [hmass]; exact hM) hstep.2.2.2 hv ha
      (fun d hd => hw d (List.mem_cons_of_mem c hd))
      (fun d hd => hJ d (List.mem_cons_of_mem c hd))
    have hc : checked_spinner s c = some (spinner s c) := hstep.1
    constructor
    · simp [checked_spin, spin, hc, hrest.1]
    · intro t ht
      rw [spin, List.mem_cons] at ht
      rcases ht with rfl | ht
      · exact hstep.2
      · exact hrest.2 t ht

/-- C6, the claim as written fails: from the zero state with non-negative limits, an
invertible mass matrix and a zero conditioned wrench, a cycle whose Jacobian is the zero matrix
has no defined result, because `J.inverse()` is undefined there; no zero command is produced. -/
theorem zero_input_singular_jacobian_fails :
    feedback_example.x_dot_last_cycle = 0
      ∧ feedback_example.q_dot_last_cycle = 0
      ∧ (∀ i, 0 ≤ feedback_example.max_vel i)
      ∧ (∀ i, 0 ≤ feedback_example.max_acc i * feedback_example.loop_rate.expectedCycleTime)
      ∧ singular_cycle.external_wrench = 0
      ∧ checked_spin feedback_example [singular_cycle] = none
      ∧ ¬ ∃ ts, checked_spin feedback_example [singular_cycle] = some ts
          ∧ ∀ t ∈ ts, t.q_dot = 0 ∧ t.x_dot_last_cycle = 0 ∧ t.q_dot_last_cycle = 0 := by
  have hnone : checked_spin feedback_example [singular_cycle] = none := by
    have hJ : singular_cycle.jacobian = 0 := rfl
    simp [checked_spin, checked_spinner, checked_compute_admittance, hJ, checked_inverse_zero]
  refine ⟨rfl, rfl, ?_, ?_, rfl, hnone, ?_⟩
  · intro i
    norm_num [feedback_example, limiter_example, admittance_controller]
  · intro i
    norm_num [feedback_example, limiter_example, admittance_controller]
  · rintro ⟨ts, hts, _⟩
    rw [hnone] at hts
    cases hts

/-- C6, amended. Zero input keeps the command at zero on every defined run: from
`x_dot_last_cycle = 0` and `q_dot_last_cycle = 0`, with non-negative `max_vel[i]` and
`max_acc[i] * dt`, an invertible mass matrix and an invertible Jacobian in every cycle, if the
conditioned wrench is zero in every cycle then, for any rotations and measured joint states and
in either velocity-source mode, every cycle is defined and leaves `q_dot`, `x_dot_last_cycle`
and `q_dot_last_cycle` equal to the zero vector. -/
theorem zero_input_zero_command (s : State) (cs : List CycleInput)
    (_hx : s.x_dot_last_cycle = 0) (hq : s.q_dot_last_cycle = 0)
    (hv : ∀ i, 0 ≤ s.max_vel i)
    (ha : ∀ i, 0 ≤ s.max_acc i * s.loop_rate.expectedCycleTime)
    (hM : s.mass_matrix.det ≠ 0)
    (hw : ∀ c ∈ cs, c.external_wrench = 0) (hJ : ∀ c ∈ cs, c.jacobian.det ≠ 0) :
    ∃ ts, checked_spin s cs = some ts ∧ ts.length = cs.length
      ∧ ∀ t ∈ ts, t.q_dot = 0 ∧ t.x_dot_last_cycle = 0 ∧ t.q_dot_last_cycle = 0 := by
  have h := checked_spin_zero s cs hM hq hv ha hw hJ
  exact ⟨spin s cs, h.1, spin_length s cs, h.2⟩

/-- C6 at a concrete run in feedback mode: two cycles with zero wrench, identity Jacobian and
rotation, identity mass matrix and a measured joint velocity of 3 on every joint. -/
theorem zero_input_zero_command_witness :
    feedback_example.x_dot_last_cycle = 0
      ∧ feedback_example.q_dot_last_cycle = 0
      ∧ (∀ i, 0 ≤ feedback_example.max_vel i)
      ∧ (∀ i, 0 ≤ feedback_example.max_acc i * feedback_example.loop_rate.expectedCycleTime)
      ∧ feedback_example.mass_matrix.det ≠ 0
      ∧ (∀ c ∈ [moving_cycle, moving_cycle], c.external_wrench = 0)
      ∧ (∀ c ∈ [moving_cycle, moving_cycle], c.jacobian.det ≠ 0)
      ∧ ∃ ts, checked_spin feedback_example [moving_cycle, moving_cycle] = some ts
          ∧ ts.length = [moving_cycle, moving_cycle].length
          ∧ ∀ t ∈ ts, t.q_dot = 0 ∧ t.x_dot_last_cycle = 0 ∧ t.q_dot_last_cycle = 0 :=
  have hv : ∀ i, 0 ≤ feedback_example.max_vel i := fun _ => by
    norm_num [feedback_example, limiter_example, admittance_controller]
  have ha : ∀ i, 0 ≤ feedback_example.max_acc i
      * feedback_example.loop_rate.expectedCycleTime := fun _ => by
    norm_num [feedback_example, limiter_example, admittance_controller]
  have hM : feedback_example.mass_matrix.det ≠ 0 := by
    have h : feedback_example.mass_matrix = 1 := rfl
    rw [h, Matrix.det_one]
    exact one_ne_zero
  have hw : ∀ c ∈ [moving_cycle, moving_cycle], c.external_wrench = 0 := by
    simp [moving_cycle]
  have hJ : ∀ c ∈ [moving_cycle, moving_cycle], c.jacobian.det ≠ 0 := by
    simp [moving_cycle]
  ⟨rfl, rfl, hv, ha, hM, hw, hJ,
    zero_input_zero_command feedback_example [moving_cycle, moving_cycle] rfl rfl hv ha hM hw hJ⟩

/-! ## The limiter against the specification -/

theorem sign_cast_eq_spec_sign (x : ℚ) : ((sign x : ℤ) : ℚ) = spec_sign x := by
  unfold spec_sign
  rcases le_or_lt 0 x with h | h
  · rw [sign_cast_of_nonneg h, if_neg (not_lt.mpr h)]
  · rw [sign_cast_of_neg h, if_pos h]

theorem limit_joint_dynamics_eq_spec (s : State) (q : Vector6d) (i : Fin 6) :
    (limit_joint_dynamics s q).1 i
      = spec_limit (s.max_vel i) (s.max_acc i) s.loop_rate.expectedCycleTime
          (s.q_dot_last_cycle i) (q i) := by
  rw [limit_joint_dynamics_apply]
  simp only [clamp_acceleration, clamp_velocity, spec_limit, fabs, sign_cast_eq_spec_sign]

/-- C8. `limit_joint_dynamics` is the two ordered passes of the specification, the
acceleration pass computed against the velocity-clamped value: per joint the result is
`spec_limit max_vel[i] max_acc[i] dt p[i] q[i]`. In the scenario `p = 0`, `q = 1`,
`max_vel ≥ 1`, `max_acc = 2`, `dt = 0.01` the result is `0.02`. -/
theorem limiter_two_passes (s : State) (q : Vector6d) (i : Fin 6) :
    (limit_joint_dynamics s q).1 i
        = spec_limit (s.max_vel i) (s.max_acc i) s.loop_rate.expectedCycleTime
            (s.q_dot_last_cycle i) (q i)
      ∧ (s.q_dot_last_cycle i = 0 → q i = 1 → 1 ≤ s.max_vel i → s.max_acc i = 2 →
          s.loop_rate.expectedCycleTime = 1 / 100 →
          (limit_joint_dynamics s q).1 i = 2 / 100) := by
  refine ⟨limit_joint_dynamics_eq_spec s q i, ?_⟩
  intro hp hq hm ha hdt
  rw [limit_joint_dynamics_eq_spec, hp, hq, ha, hdt]
  have h1 : ¬ (|(1 : ℚ)| > s.max_vel i) := by
    rw [abs_one]
    exact not_lt.mpr hm
  simp only [spec_limit, if_neg h1]
  norm_num [spec_sign]

/-- C8 at the scenario with `max_vel = 1`: previous command 0, input 1, `max_acc = 2`,
`dt = 0.01` on joint 0. -/
theorem limiter_two_passes_witness :
    limiter_example.q_dot_last_cycle 0 = 0
      ∧ 1 ≤ limiter_example.max_vel 0
      ∧ limiter_example.max_acc 0 = 2
      ∧ limiter_example.loop_rate.expectedCycleTime = 1 / 100
      ∧ (limit_joint_dynamics limiter_example (fun _ => 1)).1 0 = 2 / 100 :=
  ⟨rfl, le_refl _, rfl, rfl,
    (limiter_two_passes limiter_example (fun _ => 1) 0).2 rfl rfl (le_refl _) rfl rfl⟩

/-- C9. Pipeline order of one cycle: the command left by `compute_admittance` is
`limit_joint_dynamics` applied to `J.inverse()` times the inertia-reduced velocity, the inertia
reduction being applied to the forward-Euler result of the admittance law with the same
conditioned wrench that drives the law; whenever `J` has an inverse, `J.inverse()` is that
inverse. -/
theorem pipeline_order (s : State) (J R : Matrix6d) :
    (compute_admittance s J R).q_dot
        = (limit_joint_dynamics s
            ((inverse J).mulVec
              (compute_inertia_reduction (integrated_velocity s J R) s.external_wrench))).1
      ∧ (compute_admittance s J R).x_dot
        = compute_inertia_reduction (integrated_velocity s J R) s.external_wrench
      ∧ integrated_velocity s J R
        = start_velocity s J + s.loop_rate.expectedCycleTime •
            (inverse s.mass_matrix).mulVec (-(s.damping_matrix.mulVec (start_velocity s J))
              + s.admittance_weight • R.mulVec s.external_wrench)
      ∧ (∀ Jinv : Matrix6d, J * Jinv = 1 →
          (compute_admittance s J R).q_dot
            = (limit_joint_dynamics s
                (Jinv.mulVec
                  (compute_inertia_reduction (integrated_velocity s J R)
                    s.external_wrench))).1) := by
  have h1 : (compute_admittance s J R).q_dot
      = (limit_joint_dynamics s
          ((inverse J).mulVec
            (compute_inertia_reduction (integrated_velocity s J R) s.external_wrench))).1 := rfl
  refine ⟨h1, rfl, ?_, ?_⟩
  · funext i
    simp only [integrated_velocity, arm_desired_accelaration_cartesian, Matrix.neg_mulVec,
      Pi.add_apply, Pi.smul_apply, smul_eq_mul]
    ring
  · intro Jinv hJ
    rw [h1, inverse_eq_of_mul_eq_one J Jinv hJ]

/-- C9 at the admittance scenario with identity Jacobian and rotation. -/
theorem pipeline_order_witness :
    (1 : Matrix6d) * 1 = 1
      ∧ (compute_admittance admittance_example 1 1).q_dot
        = (limit_joint_dynamics admittance_example
            ((1 : Matrix6d).mulVec
              (compute_inertia_reduction (integrated_velocity admittance_example 1 1)
                admittance_example.external_wrench))).1 :=
  ⟨mul_one 1, (pipeline_order admittance_example 1 1).2.2.2 1 (mul_one 1)⟩

/-- C10. State update of the limiter: after a call the persistent `q_dot_last_cycle` is the
returned vector, and `max_vel`, `max_acc`, `x_dot_last_cycle` and the stored wrench are
unchanged; every other member is unchanged as well. -/
theorem limiter_state_update (s : State) (q : Vector6d) :
    (limit_joint_dynamics s q).2.q_dot_last_cycle = (limit_joint_dynamics s q).1
      ∧ (limit_joint_dynamics s q).2.max_vel = s.max_vel
      ∧ (limit_joint_dynamics s q).2.max_acc = s.max_acc
      ∧ (limit_joint_dynamics s q).2.x_dot_last_cycle = s.x_dot_last_cycle
      ∧ (limit_joint_dynamics s q).2.external_wrench = s.external_wrench
      ∧ (limit_joint_dynamics s q).2
        = { s with q_dot_last_cycle := (limit_joint_dynamics s q).1 } :=
  ⟨rfl, rfl, rfl, rfl, rfl, rfl⟩

/-! ## Joint-state callback -/

theorem list_of_length_six {α : Type} (l : List α) (h : l.length = 6) :
    ∃ a b c d e f, l = [a, b, c, d, e, f] := by
  rcases l with _ | ⟨a, _ | ⟨b, _ | ⟨c, _ | ⟨d, _ | ⟨e, _ | ⟨f, _ | ⟨g, t⟩⟩⟩⟩⟩⟩⟩ <;>
    simp at h
  exact ⟨a, b, c, d, e, f, rfl⟩

theorem swap_0_2_six {α : Type} (a b c d e f : α) :
    swap_0_2 [a, b, c, d, e, f] = some [c, b, a, d, e, f] := by
  simp [swap_0_2]

theorem copy_loop_six (a b c d e f : ℚ) (dst : Vector6d) :
    copy_loop [a, b, c, d, e, f] 0 dst = some ![a, b, c, d, e, f] := by
  simp only [copy_loop, Nat.reduceAdd, Nat.reduceLT, dite_true, Nat.lt_irrefl, Option.some.injEq]
  funext i
  fin_cases i <;> rfl

/-- C7. Axis swap in `joint_states_Callback`: on a message whose four arrays have length 6 the
callback completes; with `use_ur_real_robot` set, `joint_position` and `joint_velocity` hold
the raw arrays with indices 0 and 2 exchanged and the stored name and effort arrays are the raw
ones exchanged the same way; with the flag clear, the canonical arrays are the raw arrays and
the stored message is the raw message. -/
theorem joint_states_axis_swap (s : State) (msg : JointState)
    (hn : msg.name.length = 6) (he : msg.effort.length = 6)
    (hp : msg.position.length = 6) (hv : msg.velocity.length = 6) :
    ∃ t, joint_states_Callback s msg = some t
      ∧ (s.use_ur_real_robot = true →
          (msg.position[2]? = some (t.joint_position 0)
            ∧ msg.position[0]? = some (t.joint_position 2)
            ∧ ∀ i : Fin 6, i ≠ 0 → i ≠ 2 → msg.position[i.val]? = some (t.joint_position i))
          ∧ (msg.velocity[2]? = some (t.joint_velocity 0)
            ∧ msg.velocity[0]? = some (t.joint_velocity 2)
            ∧ ∀ i : Fin 6, i ≠ 0 → i ≠ 2 → msg.velocity[i.val]? = some (t.joint_velocity i))
          ∧ (t.joint_state.name[0]? = msg.name[2]?
            ∧ t.joint_state.name[2]? = msg.name[0]?
            ∧ ∀ i : Fin 6, i ≠ 0 → i ≠ 2 → t.joint_state.name[i.val]? = msg.name[i.val]?)
          ∧ (t.joint_state.effort[0]? = msg.effort[2]?
            ∧ t.joint_state.effort[2]? = msg.effort[0]?
            ∧ ∀ i : Fin 6, i ≠ 0 → i ≠ 2 →
                t.joint_state.effort[i.val]? = msg.effort[i.val]?))
      ∧ (s.use_ur_real_robot = false →
          (∀ i : Fin 6, msg.position[i.val]? = some (t.joint_position i))
          ∧ (∀ i : Fin 6, msg.velocity[i.val]? = some (t.joint_velocity i))
          ∧ t.joint_state = msg) := by
  obtain ⟨name, position, velocity, effort⟩ := msg
  simp only at hn he hp hv
  obtain ⟨n0, n1, n2, n3, n4, n5, rfl⟩ := list_of_length_six name hn
  obtain ⟨e0, e1, e2, e3, e4, e5, rfl⟩ := list_of_length_six effort he
  obtain ⟨p0, p1, p2, p3, p4, p5, rfl⟩ := list_of_length_six position hp
  obtain ⟨v0, v1, v2, v3, v4, v5, rfl⟩ := list_of_length_six velocity hv
  cases hflag : s.use_ur_real_robot
  · refine ⟨_, by
      simp only [joint_states_Callback, swap_joints, hflag, copy_loop_six]
      rfl, ?_, ?_⟩
    · intro h
      cases h
    · intro _
      refine ⟨?_, ?_, rfl⟩
      · intro i
        fin_cases i <;> simp
      · intro i
        fin_cases i <;> simp
  · refine ⟨_, by
      simp only [joint_states_Callback, swap_joints, hflag, swap_0_2_six, copy_loop_six]
      rfl, ?_, ?_⟩
    · intro _
      refine ⟨⟨by simp, by simp, ?_⟩, ⟨by simp, by simp, ?_⟩, ⟨by simp, by simp, ?_⟩,
        ⟨by simp, by simp, ?_⟩⟩ <;>
      · intro i h0 h2
        fin_cases i <;> simp at h0 h2 ⊢
    · intro h
      cases h

/-- C7 at a concrete message with the flag set: positions `1..6` and velocities `10..60` come
out with joints 0 and 2 exchanged. -/
theorem joint_states_axis_swap_witness :
    joint_sample.name.length = 6 ∧ joint_sample.effort.length = 6
      ∧ joint_sample.position.length = 6 ∧ joint_sample.velocity.length = 6
      ∧ ∃ t, joint_states_Callback ur_example joint_sample = some t
          ∧ t.joint_position 0 = 3 ∧ t.joint_position 2 = 1
          ∧ t.joint_velocity 0 = 30 ∧ t.joint_velocity 2 = 10
          ∧ t.joint_state.name[0]? = some "c" ∧ t.joint_state.effort[2]? = some 7 := by
  obtain ⟨t, ht, hswap, _⟩ := joint_states_axis_swap ur_example joint_sample rfl rfl rfl rfl
  obtain ⟨⟨hp0, hp2, _⟩, ⟨hv0, hv2, _⟩, ⟨hn0, _, _⟩, ⟨_, he2, _⟩⟩ := hswap rfl
  refine ⟨rfl, rfl, rfl, rfl, t, ht, ?_, ?_, ?_, ?_, ?_, ?_⟩
  · exact (Option.some.inj hp0).symm
  · exact (Option.some.inj hp2).symm
  · exact (Option.some.inj hv0).symm
  · exact (Option.some.inj hv2).symm
  · exact hn0
  · exact he2

/-! ## Sign -/

/-- C16. `sign` is two-valued with `sign(0) = +1`: it is `+1` on every `x ≥ 0` and `-1` on
every `x < 0`, and it never returns 0. -/
theorem sign_two_valued (x : ℚ) :
    (x ≥ 0 → sign x = 1) ∧ (x < 0 → sign x = -1) ∧ sign x ≠ 0 ∧ sign 0 = 1
      ∧ (sign x = 1 ∨ sign x = -1) := by
  unfold sign
  refine ⟨fun h => if_pos h, fun h => if_neg (not_le.mpr h), ?_, if_pos (le_refl 0), ?_⟩
  · split <;> decide
  · split
    · exact Or.inl rfl
    · exact Or.inr rfl

/-- C16 at 3 and at -3. -/
theorem sign_two_valued_witness :
    ((3 : ℚ) ≥ 0 ∧ sign 3 = 1) ∧ ((-3 : ℚ) < 0 ∧ sign (-3) = -1) :=
  ⟨⟨by norm_num, (sign_two_valued 3).1 (by norm_num)⟩,
   ⟨by norm_num, (sign_two_valued (-3)).2.1 (by norm_num)⟩⟩

/-! ## Sign preservation of the two passes -/

theorem clamp_velocity_sign (m q : ℚ) (hm : 0 < m) :
    (0 < clamp_velocity m q ↔ 0 < q) ∧ (clamp_velocity m q < 0 ↔ q < 0)
      ∧ (clamp_velocity m q = 0 ↔ q = 0) := by
  unfold clamp_velocity fabs
  split
  · next h =>
    rcases le_or_lt 0 q with hq | hq
    · rw [abs_of_nonneg hq] at h
      rw [sign_cast_of_nonneg hq, one_mul]
      refine ⟨⟨fun _ => by linarith, fun _ => hm⟩, ⟨fun h' => by linarith, fun h' => by linarith⟩,
        ⟨fun h' => by linarith, fun h' => by linarith⟩⟩
    · rw [sign_cast_of_neg hq, neg_one_mul]
      refine ⟨⟨fun h' => by linarith, fun h' => by linarith⟩, ⟨fun _ => hq, fun _ => by linarith⟩,
        ⟨fun h' => by linarith, fun h' => by linarith⟩⟩
  · exact ⟨Iff.rfl, Iff.rfl, Iff.rfl⟩

theorem clamp_acceleration_sign (a dt p v : ℚ) (ha : 0 < a * dt) :
    (0 < clamp_acceleration a dt p v - p ↔ 0 < v - p)
      ∧ (clamp_acceleration a dt p v - p < 0 ↔ v - p < 0)
      ∧ (clamp_acceleration a dt p v - p = 0 ↔ v - p = 0) := by
  unfold clamp_acceleration fabs
  split
  · next h =>
    rcases le_or_lt 0 (v - p) with hd | hd
    · rw [abs_of_nonneg hd] at h
      rw [sign_cast_of_nonneg hd]
      have e : p + 1 * a * dt - p = a * dt := by ring
      rw [e]
      refine ⟨⟨fun _ => by linarith, fun _ => ha⟩, ⟨fun h' => by linarith, fun h' => by linarith⟩,
        ⟨fun h' => by linarith, fun h' => by linarith⟩⟩
    · rw [sign_cast_of_neg hd]
      have e : p + -1 * a * dt - p = -(a * dt) := by ring
      rw [e]
      refine ⟨⟨fun h' => by linarith, fun h' => by linarith⟩, ⟨fun _ => hd, fun _ => by linarith⟩,
        ⟨fun h' => by linarith, fun h' => by linarith⟩⟩
  · exact ⟨Iff.rfl, Iff.rfl, Iff.rfl⟩

/-- C13. Each limiter pass is sign-preserving: for a joint with `max_vel[i] > 0` the
velocity-clamped value is positive, negative or zero exactly when the input is; and when
`max_acc[i] * dt > 0` the difference between the final result and `q_dot_last_cycle[i]` is
positive, negative or zero exactly when the difference between the velocity-clamped value and
`q_dot_last_cycle[i]` is. -/
theorem limiter_sign_preserving (s : State) (q : Vector6d) (i : Fin 6) :
    (0 < s.max_vel i →
        (0 < limit_velocity_loop s.max_vel q i ↔ 0 < q i)
          ∧ (limit_velocity_loop s.max_vel q i < 0 ↔ q i < 0)
          ∧ (limit_velocity_loop s.max_vel q i = 0 ↔ q i = 0))
      ∧ (0 < s.max_acc i * s.loop_rate.expectedCycleTime →
        (0 < (limit_joint_dynamics s q).1 i - s.q_dot_last_cycle i
            ↔ 0 < limit_velocity_loop s.max_vel q i - s.q_dot_last_cycle i)
          ∧ ((limit_joint_dynamics s q).1 i - s.q_dot_last_cycle i < 0
            ↔ limit_velocity_loop s.max_vel q i - s.q_dot_last_cycle i < 0)
          ∧ ((limit_joint_dynamics s q).1 i - s.q_dot_last_cycle i = 0
            ↔ limit_velocity_loop s.max_vel q i - s.q_dot_last_cycle i = 0)) := by
  rw [limit_joint_dynamics_apply, limit_velocity_loop_apply]
  exact ⟨fun hm => clamp_velocity_sign _ _ hm, fun ha => clamp_acceleration_sign _ _ _ _ ha⟩

/-- C13 at a concrete call: limits 1 and 2, cycle time 0.01, previous command zero and the
input -5 on joint 0; the clamped value and the final step are both negative. -/
theorem limiter_sign_preserving_witness :
    0 < limiter_example.max_vel 0
      ∧ 0 < limiter_example.max_acc 0 * limiter_example.loop_rate.expectedCycleTime
      ∧ limit_velocity_loop limiter_example.max_vel (fun _ => -5) 0 < 0
      ∧ (limit_joint_dynamics limiter_example (fun _ => -5)).1 0
          - limiter_example.q_dot_last_cycle 0 < 0 := by
  have hm : 0 < limiter_example.max_vel 0 := by
    norm_num [limiter_example, admittance_controller]
  have ha : 0 < limiter_example.max_acc 0 * limiter_example.loop_rate.expectedCycleTime := by
    norm_num [limiter_example, admittance_controller]
  have h := limiter_sign_preserving limiter_example (fun _ => -5) 0
  have hv : limit_velocity_loop limiter_example.max_vel (fun _ => -5) 0 < 0 :=
    (h.1 hm).2.1.mpr (by norm_num)
  refine ⟨hm, ha, hv, (h.2 ha).2.1.mpr ?_⟩
  have hp : limiter_example.q_dot_last_cycle 0 = 0 := rfl
  rw [hp, sub_zero]
  exact hv

/-! ## The limiter as an interval clamp -/

theorem clamp_velocity_eq_clamp (m q : ℚ) (hm : 0 ≤ m) :
    clamp_velocity m q = clamp q (-m) m := by
  unfold clamp_velocity clamp fabs
  rcases le_or_lt 0 q with hq | hq
  · rw [abs_of_nonneg hq, sign_cast_of_nonneg hq, one_mul]
    split
    · next h => rw [min_eq_left (le_of_lt h), max_eq_right (by linarith)]
    · next h =>
      rw [min_eq_right (not_lt.mp h), max_eq_right (by linarith)]
  · rw [abs_of_neg hq, sign_cast_of_neg hq, neg_one_mul]
    split
    · next h => rw [min_eq_right (by linarith), max_eq_left (by linarith)]
    · next h =>
      rw [min_eq_right (by linarith), max_eq_right (by linarith [not_lt.mp h])]

theorem clamp_acceleration_eq_clamp (a dt p v : ℚ) (ha : 0 ≤ a * dt) :
    clamp_acceleration a dt p v = p + clamp (v - p) (-(a * dt)) (a * dt) := by
  unfold clamp_acceleration clamp fabs
  rcases le_or_lt 0 (v - p) with hd | hd
  · rw [abs_of_nonneg hd, sign_cast_of_nonneg hd]
    split
    · next h =>
      rw [min_eq_left (le_of_lt h), max_eq_right (by linarith)]
      ring
    · next h =>
      rw [min_eq_right (not_lt.mp h), max_eq_right (by linarith)]
      ring
  · rw [abs_of_neg hd, sign_cast_of_neg hd]
    split
    · next h =>
      rw [min_eq_right (by linarith), max_eq_left (by linarith)]
      ring
    · next h =>
      rw [min_eq_right (by linarith), max_eq_right (by linarith [not_lt.mp h])]
      ring

/-- C14. Under non-negative limits the limiter is the standard interval clamp: for a joint
with `max_vel[i] ≥ 0` and `max_acc[i] * dt ≥ 0`, `limit_joint_dynamics` returns
`p[i] + clamp(clamp(q[i], -max_vel[i], max_vel[i]) - p[i], -max_acc[i]*dt, max_acc[i]*dt)`. -/
theorem limiter_is_interval_clamp (s : State) (q : Vector6d) (i : Fin 6)
    (hv : 0 ≤ s.max_vel i) (ha : 0 ≤ s.max_acc i * s.loop_rate.expectedCycleTime) :
    (limit_joint_dynamics s q).1 i
      = s.q_dot_last_cycle i
        + clamp (clamp (q i) (-s.max_vel i) (s.max_vel i) - s.q_dot_last_cycle i)
            (-(s.max_acc i * s.loop_rate.expectedCycleTime))
            (s.max_acc i * s.loop_rate.expectedCycleTime) := by
  rw [limit_joint_dynamics_apply, clamp_acceleration_eq_clamp _ _ _ _ ha,
    clamp_velocity_eq_clamp _ _ hv]

/-- C14 at a concrete call: limits 1 and 2, cycle time 0.01, previous command zero and the
input 5 on joint 0 give `0 + clamp(clamp(5, -1, 1) - 0, -0.02, 0.02) = 0.02`. -/
theorem limiter_is_interval_clamp_witness :
    0 ≤ limiter_example.max_vel 0
      ∧ 0 ≤ limiter_example.max_acc 0 * limiter_example.loop_rate.expectedCycleTime
      ∧ (limit_joint_dynamics limiter_example (fun _ => 5)).1 0 = 2 / 100 := by
  have hv : 0 ≤ limiter_example.max_vel 0 := by
    norm_num [limiter_example, admittance_controller]
  have ha : 0 ≤ limiter_example.max_acc 0 * limiter_example.loop_rate.expectedCycleTime := by
    norm_num [limiter_example, admittance_controller]
  refine ⟨hv, ha, ?_⟩
  rw [limiter_is_interval_clamp limiter_example (fun _ => 5) 0 hv ha]
  norm_num [limiter_example, admittance_controller, clamp]

/-! ## Idempotence of the dead zone -/

theorem dead_zone_apply (fz tz : ℚ) (w : Vector6d) (i : Fin 6) :
    dead_zone fz tz w i
      = if i.val < 3 then (if fabs (w i) < fabs fz then 0 else w i)
        else (if fabs (w i) < fabs tz then 0 else w i) := by
  unfold dead_zone
  rw [dead_zone_loop_apply _ _ (by decide), dead_zone_loop_apply _ _ (by decide)]
  have h : (i ∈ ([0, 1, 2] : List (Fin 6)) ∧ i ∉ ([3, 4, 5] : List (Fin 6)) ∧ i.val < 3)
      ∨ (i ∉ ([0, 1, 2] : List (Fin 6)) ∧ i ∈ ([3, 4, 5] : List (Fin 6)) ∧ ¬ i.val < 3) := by
    fin_cases i <;> simp
  rcases h with ⟨h1, h2, h3⟩ | ⟨h1, h2, h3⟩
  · simp only [h1, h2, h3, if_true, if_false]
  · simp only [h1, h2, h3, if_true, if_false]

theorem dead_zone_scalar_idem (t x : ℚ) :
    (if fabs (if fabs x < fabs t then 0 else x) < fabs t then 0
      else (if fabs x < fabs t then 0 else x))
      = if fabs x < fabs t then 0 else x := by
  by_cases h : fabs x < fabs t
  · simp [h]
  · simp [h]

theorem dead_zone_idem (fz tz : ℚ) (w : Vector6d) :
    dead_zone fz tz (dead_zone fz tz w) = dead_zone fz tz w := by
  funext i
  rw [dead_zone_apply fz tz (dead_zone fz tz w) i, dead_zone_apply fz tz w i]
  by_cases h : i.val < 3
  · simp only [h, if_true]
    exact dead_zone_scalar_idem fz (w i)
  · simp only [h, if_false]
    exact dead_zone_scalar_idem tz (w i)

/-- C15. The dead-zone conditioner is idempotent: for every raw wrench and every pair of
thresholds, the dead-zone step of `force_sensor_Callback` applied to an already conditioned
wrench returns it unchanged; in particular the wrench the callback stores is a fixed point of
the step. -/
theorem dead_zone_idempotent (s : State) (msg : WrenchStamped) (fz tz : ℚ) (w : Vector6d) :
    dead_zone fz tz (dead_zone fz tz w) = dead_zone fz tz w
      ∧ dead_zone s.force_dead_zone s.torque_dead_zone
          (force_sensor_Callback s msg).external_wrench
        = (force_sensor_Callback s msg).external_wrench := by
  refine ⟨dead_zone_idem fz tz w, ?_⟩
  simp only [force_sensor_Callback]
  exact dead_zone_idem s.force_dead_zone s.torque_dead_zone (raw_wrench msg)

/-! ## The configuration flag and the carried velocity -/

/-- C11. The `inertia_reduction` flag has no influence on the control output: setting it to
any value in the state before a cycle leaves `q_dot`, `x_dot`, `x_dot_last_cycle` and
`q_dot_last_cycle` after `compute_admittance` the same, and the inertia reduction is applied in
both cases. -/
theorem inertia_reduction_flag_ignored (s : State) (b : Bool) (J R : Matrix6d) :
    (compute_admittance { s with inertia_reduction := b } J R).q_dot
        = (compute_admittance s J R).q_dot
      ∧ (compute_admittance { s with inertia_reduction := b } J R).x_dot
        = (compute_admittance s J R).x_dot
      ∧ (compute_admittance { s with inertia_reduction := b } J R).x_dot_last_cycle
        = (compute_admittance s J R).x_dot_last_cycle
      ∧ (compute_admittance { s with inertia_reduction := b } J R).q_dot_last_cycle
        = (compute_admittance s J R).q_dot_last_cycle
      ∧ (compute_admittance { s with inertia_reduction := b } J R).x_dot
        = compute_inertia_reduction (integrated_velocity s J R) s.external_wrench
      ∧ (compute_admittance s J R).x_dot
        = compute_inertia_reduction (integrated_velocity s J R) s.external_wrench :=
  ⟨rfl, rfl, rfl, rfl, rfl, rfl⟩

theorem mulVec_mulVec_of_mul_eq_one (A B : Matrix6d) (h : A * B = 1) (x : Vector6d) :
    A.mulVec (B.mulVec x) = x := by
  rw [Matrix.mulVec_mulVec, h, Matrix.one_mulVec]

/-- C12. The cartesian velocity carried to the next cycle is the last commanded one: after
`compute_admittance`, `x_dot_last_cycle = J * q_dot` for the emitted `q_dot`; and when `J` has
an inverse and neither the velocity pass nor the acceleration pass of `limit_joint_dynamics`
changes `J^-1 * x_dot`, `x_dot_last_cycle` is the inertia-reduced `x_dot` of that cycle. -/
theorem carried_velocity (s : State) (J R : Matrix6d) :
    (compute_admittance s J R).x_dot_last_cycle = J.mulVec (compute_admittance s J R).q_dot
      ∧ (compute_admittance s J R).x_dot
        = compute_inertia_reduction (integrated_velocity s J R) s.external_wrench
      ∧ (∀ Jinv : Matrix6d, J * Jinv = 1 →
          limit_velocity_loop s.max_vel (Jinv.mulVec (compute_admittance s J R).x_dot)
            = Jinv.mulVec (compute_admittance s J R).x_dot →
          limit_acceleration_loop s.max_acc s.q_dot_last_cycle s.loop_rate.expectedCycleTime
              (Jinv.mulVec (compute_admittance s J R).x_dot)
            = Jinv.mulVec (compute_admittance s J R).x_dot →
          (compute_admittance s J R).x_dot_last_cycle = (compute_admittance s J R).x_dot) := by
  have h1 : (compute_admittance s J R).x_dot_last_cycle
      = J.mulVec (compute_admittance s J R).q_dot := rfl
  have h2 : (compute_admittance s J R).q_dot
      = limit_acceleration_loop s.max_acc s.q_dot_last_cycle s.loop_rate.expectedCycleTime
          (limit_velocity_loop s.max_vel
            ((inverse J).mulVec (compute_admittance s J R).x_dot)) := rfl
  refine ⟨h1, rfl, ?_⟩
  intro Jinv hJ hvel hacc
  rw [h1, h2, inverse_eq_of_mul_eq_one J Jinv hJ, hvel, hacc]
  exact mulVec_mulVec_of_mul_eq_one J Jinv hJ _

theorem admittance_example_mass_inverse :
    admittance_example.mass_matrix * Matrix.diagonal ![1 / 10, 1 / 10, 1 / 10, 1, 1, 1] = 1 := by
  have hf : (fun i : Fin 6 => (![10, 10, 10, 1, 1, 1] : Vector6d) i
      * (![1 / 10, 1 / 10, 1 / 10, 1, 1, 1] : Vector6d) i) = fun _ => 1 := by
    funext i
    fin_cases i <;> norm_num [Matrix.vecHead, Matrix.vecTail]
  simp only [admittance_example, admittance_controller, Matrix.diagonal_mul_diagonal]
  rw [hf, Matrix.diagonal_one]

theorem admittance_example_x_dot :
    (compute_admittance admittance_example 1 1).x_dot = ![2 / 1000, 0, 0, 0, 0, 0] := by
  have h : (compute_admittance admittance_example 1 1).x_dot
      = compute_inertia_reduction (integrated_velocity admittance_example 1 1)
          admittance_example.external_wrench := rfl
  have hx : start_velocity admittance_example 1 = 0 := by
    simp [start_velocity, admittance_example, admittance_controller]
  rw [h]
  funext i
  rw [compute_inertia_reduction_apply]
  simp only [integrated_velocity, arm_desired_accelaration_cartesian, hx,
    inverse_eq_of_mul_eq_one _ _ admittance_example_mass_inverse]
  fin_cases i <;>
    norm_num [admittance_example, admittance_controller, Matrix.mulVec_diagonal,
      Matrix.vecHead, Matrix.vecTail]

theorem admittance_example_velocity_pass (q : Vector6d) (h : ∀ i, |q i| ≤ 1) :
    limit_velocity_loop admittance_example.max_vel q = q := by
  funext i
  rw [limit_velocity_loop_apply]
  have hm : admittance_example.max_vel i = 1 := rfl
  rw [hm, clamp_velocity, fabs, if_neg (not_lt.mpr (h i))]

theorem admittance_example_acceleration_pass (q : Vector6d) (h : ∀ i, |q i| ≤ 4 / 1000) :
    limit_acceleration_loop admittance_example.max_acc admittance_example.q_dot_last_cycle
      admittance_example.loop_rate.expectedCycleTime q = q := by
  funext i
  rw [limit_acceleration_loop_apply]
  have ha : admittance_example.max_acc i = 2 := rfl
  have hd : admittance_example.loop_rate.expectedCycleTime = 2 / 1000 := rfl
  have hp : admittance_example.q_dot_last_cycle i = 0 := rfl
  rw [ha, hd, hp, clamp_acceleration, fabs, sub_zero,
    if_neg (not_lt.mpr (le_trans (h i) (by norm_num)))]

theorem admittance_example_small (i : Fin 6) :
    |(![2 / 1000, 0, 0, 0, 0, 0] : Vector6d) i| ≤ 4 / 1000 := by
  rw [abs_le]
  fin_cases i <;> norm_num [Matrix.vecHead, Matrix.vecTail]

/-- C12 at the admittance scenario with identity Jacobian and rotation: the joint command
`(0.002,0,0,0,0,0)` passes both clamps unchanged, and the carried cartesian velocity is the
inertia-reduced velocity `(0.002,0,0,0,0,0)`. -/
theorem carried_velocity_witness :
    (1 : Matrix6d) * 1 = 1
      ∧ limit_velocity_loop admittance_example.max_vel
          ((1 : Matrix6d).mulVec (compute_admittance admittance_example 1 1).x_dot)
        = (1 : Matrix6d).mulVec (compute_admittance admittance_example 1 1).x_dot
      ∧ limit_acceleration_loop admittance_example.max_acc admittance_example.q_dot_last_cycle
          admittance_example.loop_rate.expectedCycleTime
          ((1 : Matrix6d).mulVec (compute_admittance admittance_example 1 1).x_dot)
        = (1 : Matrix6d).mulVec (compute_admittance admittance_example 1 1).x_dot
      ∧ (compute_admittance admittance_example 1 1).x_dot_last_cycle
        = ![2 / 1000, 0, 0, 0, 0, 0] := by
  have hvel : limit_velocity_loop admittance_example.max_vel
      ((1 : Matrix6d).mulVec (compute_admittance admittance_example 1 1).x_dot)
      = (1 : Matrix6d).mulVec (compute_admittance admittance_example 1 1).x_dot := by
    rw [Matrix.one_mulVec, admittance_example_x_dot]
    exact admittance_example_velocity_pass _
      (fun i => le_trans (admittance_example_small i) (by norm_num))
  have hacc : limit_acceleration_loop admittance_example.max_acc
      admittance_example.q_dot_last_cycle admittance_example.loop_rate.expectedCycleTime
      ((1 : Matrix6d).mulVec (compute_admittance admittance_example 1 1).x_dot)
      = (1 : Matrix6d).mulVec (compute_admittance admittance_example 1 1).x_dot := by
    rw [Matrix.one_mulVec, admittance_example_x_dot]
    exact admittance_example_acceleration_pass _ admittance_example_small
  refine ⟨mul_one 1, hvel, hacc, ?_⟩
  rw [(carried_velocity admittance_example 1 1).2.2 1 (mul_one 1) hvel hacc,
    admittance_example_x_dot]

end admittance_controller
